import Mathlib

set_option allowUnsafeReducibility true
attribute [semireducible] Rat.add Rat.mul Rat.sub Rat.inv Rat.div Rat.ofScientific

/-!
Verification of `AnniesLasso/cannon.py` (class `CannonModel` and its module-level
helper functions) against its natural-language specification.

The Python source is shallowly embedded:

* exact numerics are carried by `ℚ`;
* IEEE-754 special values produced by numpy (`inf`, `-inf`, `nan`) are carried by
  the four-constructor type `RVal`; its arithmetic follows the IEEE rules that
  numpy applies (e.g. `1.0/0.0 = inf` with a warning, `0.0 * inf = nan`,
  `sqrt` of a negative is `nan`), with two documented approximations: `RVal.sqrt`
  of a finite nonnegative value uses `Rat.sqrt` (exact on sign, zero and
  finiteness, which is all the statements below depend on), and there is no
  signed zero;
* matrices for the closed-form pixel solver use `Matrix (Fin s) (Fin p) ℚ`,
  with exact singularity (`det = 0`) standing for the `numpy.linalg.LinAlgError`
  raised by `np.linalg.inv` on a singular matrix;
* Python exceptions are `Except String` results, the message naming the
  exception;
* external collaborators (the vectorizer, `scipy.ndimage.gaussian_filter`,
  `np.interp`, `scipy.optimize.curve_fit`, the process pool) are opaque
  function parameters; `curve_fit` either returns `(popt, pcov)` or signals the
  `RuntimeError` that the source catches.
-/

/-- A numpy floating-point scalar: a finite rational, `+inf`, `-inf`, or `nan`. -/
inductive RVal where
  | val : ℚ → RVal
  | pinf : RVal
  | ninf : RVal
  | nan : RVal
deriving DecidableEq

namespace RVal

/-- Embedding of `np.isfinite`. -/
def isFinite : RVal → Bool
  | .val _ => true
  | _ => false

/-- IEEE negation. -/
def neg : RVal → RVal
  | .val a => .val (-a)
  | .pinf => .ninf
  | .ninf => .pinf
  | .nan => .nan

/-- IEEE addition as numpy computes it. -/
def add : RVal → RVal → RVal
  | .nan, _ => .nan
  | _, .nan => .nan
  | .val a, .val b => .val (a + b)
  | .val _, .pinf => .pinf
  | .val _, .ninf => .ninf
  | .pinf, .val _ => .pinf
  | .ninf, .val _ => .ninf
  | .pinf, .pinf => .pinf
  | .ninf, .ninf => .ninf
  | .pinf, .ninf => .nan
  | .ninf, .pinf => .nan

/-- IEEE subtraction. -/
def sub (a b : RVal) : RVal := add a (neg b)

/-- IEEE multiplication as numpy computes it (`0 * inf = nan`). -/
def mul : RVal → RVal → RVal
  | .nan, _ => .nan
  | _, .nan => .nan
  | .val a, .val b => .val (a * b)
  | .val a, .pinf => if a > 0 then .pinf else if a < 0 then .ninf else .nan
  | .val a, .ninf => if a > 0 then .ninf else if a < 0 then .pinf else .nan
  | .pinf, .val b => if b > 0 then .pinf else if b < 0 then .ninf else .nan
  | .ninf, .val b => if b > 0 then .ninf else if b < 0 then .pinf else .nan
  | .pinf, .pinf => .pinf
  | .ninf, .ninf => .pinf
  | .pinf, .ninf => .ninf
  | .ninf, .pinf => .ninf

/-- IEEE division as numpy computes it: `x/0` is `nan` for `x = 0` and a signed
infinity otherwise (numpy warns but does not raise). -/
def div : RVal → RVal → RVal
  | .nan, _ => .nan
  | _, .nan => .nan
  | .val a, .val b =>
      if b = 0 then (if a = 0 then .nan else if a > 0 then .pinf else .ninf)
      else .val (a / b)
  | .val _, .pinf => .val 0
  | .val _, .ninf => .val 0
  | .pinf, .val b => if b < 0 then .ninf else .pinf
  | .ninf, .val b => if b < 0 then .pinf else .ninf
  | .pinf, .pinf => .nan
  | .pinf, .ninf => .nan
  | .ninf, .pinf => .nan
  | .ninf, .ninf => .nan

/-- Embedding of `np.sqrt`: `nan` on negative input, `inf` on `inf`; on a finite
nonnegative rational the magnitude is approximated by `Rat.sqrt`, which is exact
on sign, zero and finiteness. -/
def sqrt : RVal → RVal
  | .val a => if a < 0 then .nan else .val (Rat.sqrt a)
  | .pinf => .pinf
  | .ninf => .nan
  | .nan => .nan

/-- Embedding of `np.abs`. -/
def absV : RVal → RVal
  | .val a => .val |a|
  | .pinf => .pinf
  | .ninf => .pinf
  | .nan => .nan

/-- Comparison used when ranking non-`nan` values (`-inf < finite < inf`);
`nan` never ranks below anything, matching how `np.nanargmin` skips it. -/
def leb : RVal → RVal → Bool
  | .nan, _ => false
  | _, .nan => false
  | .ninf, _ => true
  | .val _, .ninf => false
  | .val a, .val b => a ≤ b
  | .val _, .pinf => true
  | .pinf, .pinf => true
  | .pinf, _ => false

/-- Sum of a list, as `np.sum` (0 on the empty list). -/
def sum (xs : List RVal) : RVal := xs.foldr add (.val 0)

end RVal

instance : Inhabited RVal := ⟨RVal.nan⟩

/-! ## Closed-form pixel solver: `_fit_theta` (cannon.py lines 1049-1082)

`_fit_theta(normalized_flux, normalized_ivar, s2, design_matrix)` computes the
adjusted inverse variance `ivar = normalized_ivar / (1 + normalized_ivar*s2)`,
the weighted design matrix `CiA = design_matrix * ivar[:, None]`, and inverts
the normal-equations matrix `design_matrix.T @ CiA`.  On `LinAlgError`
(singular matrix) it returns `(hstack([1, zeros]), None, ivar)`; otherwise it
returns `(ATCiAinv @ (design_matrix.T @ (normalized_flux*ivar)), ATCiAinv,
ivar)`. -/

/-- Adjusted inverse variance `ivar / (1 + ivar * s2)`, elementwise. -/
def adjustedIvar {s : ℕ} (nivar : Fin s → ℚ) (s2 : ℚ) : Fin s → ℚ :=
  fun i => nivar i / (1 + nivar i * s2)

/-- The canonical default coefficient vector `[1, 0, ..., 0]`
(`np.hstack([1, [0] * (design_matrix.shape[1] - 1)])`). -/
def defaultTheta (p : ℕ) : Fin p → ℚ :=
  fun j => if (j : ℕ) = 0 then 1 else 0

/-- The weighted design matrix `CiA = design_matrix * np.tile(ivar, ...).T`. -/
def weightedDesign {s p : ℕ} (D : Matrix (Fin s) (Fin p) ℚ)
    (nivar : Fin s → ℚ) (s2 : ℚ) : Matrix (Fin s) (Fin p) ℚ :=
  Matrix.of fun i j => D i j * adjustedIvar nivar s2 i

/-- The normal-equations matrix `np.dot(design_matrix.T, CiA)`. -/
def normalMatrix {s p : ℕ} (D : Matrix (Fin s) (Fin p) ℚ)
    (nivar : Fin s → ℚ) (s2 : ℚ) : Matrix (Fin p) (Fin p) ℚ :=
  D.transpose * weightedDesign D nivar s2

/-- The right-hand side `ATY = np.dot(design_matrix.T, normalized_flux * ivar)`. -/
def weightedRHS {s p : ℕ} (D : Matrix (Fin s) (Fin p) ℚ)
    (nflux nivar : Fin s → ℚ) (s2 : ℚ) : Fin p → ℚ :=
  D.transpose.mulVec (fun i => nflux i * adjustedIvar nivar s2 i)

/-- Embedding of `_fit_theta`.  Exact singularity of the normal-equations
matrix (`det = 0`) stands for the `LinAlgError` branch; on a nonsingular matrix
the inverse is `det⁻¹ • adjugate`. -/
def fit_theta {s p : ℕ} (nflux nivar : Fin s → ℚ) (s2 : ℚ)
    (D : Matrix (Fin s) (Fin p) ℚ) :
    (Fin p → ℚ) × Option (Matrix (Fin p) (Fin p) ℚ) × (Fin s → ℚ) :=
  let ivar := adjustedIvar nivar s2
  let M := normalMatrix D nivar s2
  if M.det = 0 then
    (defaultTheta p, none, ivar)
  else
    let ATCiAinv := M.det⁻¹ • M.adjugate
    (ATCiAinv.mulVec (weightedRHS D nflux nivar s2), some ATCiAinv, ivar)


/-! ## Pixel objectives and `_fit_pixel` (cannon.py lines 927-1013) -/

/-- Dot product of two rational lists (`np.dot` on 1-D arrays). -/
def dotQ (xs ys : List ℚ) : ℚ := ((xs.zip ys).map (fun p => p.1 * p.2)).sum

/-- Modelled from the spec: `model._chi_sq` (module `model.py`, absent from
`src/`) — "Objective (both modes): weighted chi-square =
Σ adjusted_ivar · (flux − design_matrix·θ)²". -/
def chi_sq_model (theta : List ℚ) (design : List (List ℚ)) (flux ivar : List ℚ) :
    ℚ :=
  ((design.zip (flux.zip ivar)).map
    (fun rfi => rfi.2.2 * (rfi.2.1 - dotQ rfi.1 theta) ^ 2)).sum

/-- Embedding of `_model_pixel` (lines 1001-1005): recompute the adjusted
inverse variance `ivar/(1 + ivar·scatter²)` from the trial scatter, then
evaluate the chi-square objective. -/
def model_pixel (theta : List ℚ) (scatter : ℚ) (nflux nivar : List ℚ)
    (design : List (List ℚ)) : ℚ :=
  chi_sq_model theta design nflux (nivar.map (fun v => v / (1 + v * scatter ^ 2)))

/-- Embedding of `_model_pixel_fixed_scatter` (lines 1008-1013): split the
parameter vector as `theta, scatter = parameters[:-1], parameters[-1]`. -/
def model_pixel_fixed_scatter (parameters : List ℚ) (nflux nivar : List ℚ)
    (design : List (List ℚ)) : ℚ :=
  model_pixel parameters.dropLast (parameters.getLastD 0) nflux nivar design

/-- Embedding of `_fit_pixel` (lines 927-996).  Its first executable statement
after unpacking the design matrix is `raise a` (line 960) with `a` an undefined
name, so every call raises `NameError` before reaching any other logic; the
rest of the body is dead code (see `fit_pixel_dead_body`). -/
def fit_pixel (initial_theta : Option (List ℚ)) (initial_s2 : ℚ)
    (nflux nivar : List ℚ) (design : List (List ℚ)) (fixed_scatter : Bool) :
    Except String (List ℚ) :=
  Except.error "NameError: name a is not defined"

/-- Embedding of the dead code after `raise a` in `_fit_pixel`
(lines 961-996): the all-zero-ivar short circuit evaluates
`scatter if fixed_scatter else 0`, reading the undefined name `scatter`
whenever `fixed_scatter` is true (Python evaluates the conditional expression
lazily, so the `else 0` arm avoids the `NameError`); past the short circuit,
the fixed-scatter branch reads the undefined `scatter` (line 981) and the joint
branch reads the undefined `p0_scatter` (line 984), both before
`op.fmin_powell` could run — so the optimizer call and the `warnflag` warning
logic (lines 987-994) are unreachable even ignoring line 960. -/
def fit_pixel_dead_body (nflux nivar : List ℚ) (nterms : Nat)
    (fixed_scatter : Bool) : Except String (List ℚ) :=
  let initial_theta : List ℚ := 1 :: List.replicate (nterms - 1) 0
  if nivar.all (fun v => v == 0) then
    if fixed_scatter then Except.error "NameError: name scatter is not defined"
    else Except.ok (initial_theta ++ [0])
  else
    if fixed_scatter then Except.error "NameError: name scatter is not defined"
    else Except.error "NameError: name p0_scatter is not defined"

/-! ## Training dispatch: `CannonModel.train` (cannon.py lines 81-194) -/

/-- One per-pixel argument row as assembled by `zip(*args)` in `train`:
`(initial_theta, initial_s2, flux column, ivar column)`.  The censored
vectorizer terms travel in the rows too but are passed through opaquely to the
fitting callable and inspected by nothing the claims touch, so they are
omitted. -/
abbrev PixRow : Type := Option (List ℚ) × ℚ × List ℚ × List ℚ

/-- The per-pixel fitting callable (`_fit_pixel` by default, replaceable via
the `function` keyword argument of `train`); returns the fitted row
`[θ..., s2]` or raises. -/
abbrev FitFun : Type := PixRow → Except String (List ℚ)

/-- Four-way zip, as `zip(*args)` over four sequences. -/
def zip4 {α β γ δ : Type} : List α → List β → List γ → List δ →
    List (α × β × γ × δ)
  | a :: as, b :: bs, c :: cs, d :: ds => (a, b, c, d) :: zip4 as bs cs ds
  | _, _, _, _ => []

/-- Embedding of the sequential neighbour-warm-start loop (lines 160-169):
pixel 0 keeps its own initial theta; every later pixel's initial theta is
replaced by the previous fitted row truncated to the design-matrix width
(`output[-1][0][:self.design_matrix.shape[1]]`). -/
def warmLoop (f : FitFun) (nterms : Nat) :
    List PixRow → Option (List ℚ) → Except String (List (List ℚ))
  | [], _ => Except.ok []
  | row :: rest, lastTheta =>
    let row' : PixRow :=
      match lastTheta with
      | none => row
      | some t => (some t, row.2)
    match f row' with
    | Except.error e => Except.error e
    | Except.ok res =>
      match warmLoop f nterms rest (some (res.take nterms)) with
      | Except.error e => Except.error e
      | Except.ok outRest => Except.ok (res :: outRest)

/-- Embedding of `CannonModel.train` (lines 81-194) up to collecting the
per-pixel result rows.  `poolPresent` abstracts `self.pool`; both `map` and
`pool.map` return results in input order, so the non-warm branches are
`List.mapM`.  The `s2` property setter lives in `model.py` (absent from
`src/`); Modelled from the spec: "Scatter (s²): 1D vector, shape (N_pixels,)"
— assigning the scalar `0` at line 91 stores the all-zero per-pixel vector. -/
def trainRaw (f : FitFun) (poolPresent : Bool) (theta : Option (List (List ℚ)))
    (s2 : Option (List ℚ)) (useNeighbouring : Option Bool)
    (fixed_scatter : Bool) (fluxT ivarT : List (List ℚ)) (npix nterms : Nat) :
    Except String (List (List ℚ)) :=
  if fixed_scatter = false then
    Except.error "AssertionError: Are you refactoring?"
  else
    let s2set : Option (List ℚ) :=
      match s2 with
      | none => some (List.replicate npix 0)
      | some v => some v
    if fixed_scatter = true ∧ s2set = none then
      Except.error "ValueError: intrinsic pixel variance (s2) must be set before training if fixed_scatter is set to True"
    else
      let unp : Bool :=
        match theta with
        | none => useNeighbouring.getD true
        | some _ =>
          if useNeighbouring = some true then false
          else useNeighbouring.getD false
      let initialTheta : List (Option (List ℚ)) :=
        match theta with
        | none => List.replicate npix none
        | some t => t.map some
      let initialS2 : List ℚ :=
        if fixed_scatter then s2set.getD []
        else List.replicate npix ((1 : ℚ) / 10000)
      let rows := zip4 initialTheta initialS2 fluxT ivarT
      if poolPresent = false ∧ unp = true then warmLoop f nterms rows none
      else rows.mapM f

/-- Embedding of the tail of `train` (lines 189-192): unpack the collected
rows into `theta` (`results[:, :-1]`) and `s2` (`results[:, -1]`). -/
def trainModel (f : FitFun) (poolPresent : Bool)
    (theta : Option (List (List ℚ))) (s2 : Option (List ℚ))
    (useNeighbouring : Option Bool) (fixed_scatter : Bool)
    (fluxT ivarT : List (List ℚ)) (npix nterms : Nat) :
    Except String (List (List ℚ) × List ℚ) :=
  (trainRaw f poolPresent theta s2 useNeighbouring fixed_scatter fluxT ivarT
      npix nterms).map
    (fun rows => (rows.map List.dropLast, rows.map (fun r => r.getLastD 0)))

/-! ## Per-spectrum fitter: `_fit_spectrum` (cannon.py lines 727-924) -/

/-- Boolean-mask indexing `x[use]`. -/
def maskFilter {α : Type} (use : List Bool) (xs : List α) : List α :=
  ((use.zip xs).filter (fun p => p.1)).map (fun p => p.2)

/-- Count of selected pixels, `sum(use)`. -/
def countTrue (use : List Bool) : Nat := (use.filter id).length

/-- Lines 760-761: the per-pixel `adjusted_sigma = np.sqrt(1.0/adjusted_ivar)`
with `adjusted_ivar = normalized_ivar/(1. + normalized_ivar * s2)`.  A
zero-ivar pixel gives `sqrt(1/0) = inf` (numpy warns but does not raise). -/
def adjSigmaList (nivar s2 : List ℚ) : List RVal :=
  (nivar.zip s2).map (fun p =>
    RVal.sqrt ((RVal.val 1).div (RVal.val (p.1 / (1 + p.1 * p.2)))))

/-- Line 765: `use = np.isfinite(adjusted_sigma * normalized_flux)`. -/
def useMask (flux : List RVal) (nivar s2 : List ℚ) : List Bool :=
  ((adjSigmaList nivar s2).zip flux).map (fun p => (p.1.mul p.2).isFinite)

/-- Outcomes of probing `vectorizer.get_label_vector_derivative` at the
fiducials: it computes a derivative, raises `NotImplementedError`, or raises
some other exception. -/
inductive DerivStatus where
  | available
  | notImplemented
  | otherError
deriving DecidableEq

/-- Lines 779-806: when the caller passes `Dfun`, probe the vectorizer's
analytic derivative at the fiducials.  A successful probe reaches the `else:`
clause of the `try`, whose first executable statement is
`raise NotImplementedError("requires a thinko")`; a `NotImplementedError` from
the probe falls back to `Dfun = None` (finite differences); any other
exception is logged and re-raised.  The returned Bool is whether a non-`None`
`Dfun` was installed — `false` on every non-raising path. -/
def resolveDfun (requested : Bool) (st : DerivStatus) : Except String Bool :=
  if requested then
    match st with
    | .notImplemented => Except.ok false
    | .otherError =>
      Except.error "exception raised when calculating the label vector derivative"
    | .available => Except.error "NotImplementedError: requires a thinko"
  else Except.ok false

/-- Mixed dot product of a rational row with an `RVal` vector. -/
def dotRQ (row : List ℚ) (v : List RVal) : RVal :=
  RVal.sum ((row.zip v).map (fun p => (RVal.val p.1).mul p.2))

/-- Line 812: `np.dot(theta, vectorizer(labels).T)[:, 0]`. -/
def thetaDotVec (theta : List (List ℚ)) (v : List RVal) : List RVal :=
  theta.map (fun row => dotRQ row v)

/-- Line 808: `1.0/np.diff(dispersion).mean()`.  Lean's `q/0 = 0` convention
is harmless junk on a sub-two-point dispersion grid (numpy would give `nan`
there); the value only feeds the opaque Gaussian-filter width. -/
def meanPixelScale (dispersion : List ℚ) : ℚ :=
  let diffs := (dispersion.zip dispersion.tail).map (fun p => p.2 - p.1)
  1 / (diffs.sum / diffs.length)

/-- The velocity trial parameter (lines 821-822): `parameters[-2]` when an LSF
kernel width is also being fit, else `parameters[-1]`. -/
def velocityOf (model_lsf : Bool) (params : List ℚ) : ℚ :=
  if model_lsf then params.getD (params.length - 2) 0 else params.getLastD 0

/-- Embedding of the forward model `f` defined inside `_fit_spectrum`
(lines 810-832): evaluate `theta · vectorizer(labels)`; optionally convolve
with the opaque Gaussian filter of width `abs(parameters[-1]) *
mean_pixel_scale`; with redshift enabled, return an all-`nan` vector of length
`sum(use)` whenever `np.abs(v) >= max_abs_velocity`, else resample through the
opaque `np.interp`; finally apply the finiteness mask. -/
def fModel (theta : List (List ℚ)) (vec : List RVal → List RVal)
    (gauss : List RVal → ℚ → List RVal) (interp : ℚ → List RVal → List RVal)
    (n_labels : Nat) (model_lsf model_redshift : Bool)
    (max_abs_velocity : ℚ) (pixel_scale : ℚ) (use : List Bool)
    (params : List ℚ) : List RVal :=
  let y := thetaDotVec theta (vec ((params.take n_labels).map RVal.val))
  let y := if model_lsf then gauss y (|params.getLastD 0| * pixel_scale) else y
  if model_redshift then
    let v := velocityOf model_lsf params
    if max_abs_velocity ≤ |v| then
      List.replicate (countTrue use) RVal.nan
    else maskFilter use (interp v y)
  else maskFilter use y

/-- One completed multi-start attempt: the optimized point, its covariance,
the augmented initial point `p0`, the best-fit model `fvec`, and the
chi-square. -/
structure StartResult where
  op_labels : List ℚ
  cov : List (List RVal)
  p0 : List ℚ
  fvec : List RVal
  chi_sq : RVal
deriving DecidableEq, Inhabited

/-- Line 882: `np.sum((fvec - normalized_flux)**2 / adjusted_sigma**2)` over
the masked pixels. -/
def chiSqOf (fvec fluxM sigmaM : List RVal) : RVal :=
  RVal.sum (((fvec.zip fluxM).zip sigmaM).map
    (fun p => ((p.1.1.sub p.1.2).mul (p.1.1.sub p.1.2)).div (p.2.mul p.2)))

/-- Embedding of the multi-start loop (lines 860-884): augment each initial
point with the nuisance defaults (`+= [0]` for redshift, then `+= [5]` for the
LSF width), call the opaque `curve_fit`, skip the start on `RuntimeError`,
otherwise record `(op_labels, cov, p0, fvec, chi_sq)`.  The second component
counts `curve_fit` invocations. -/
def runStarts (curveFit : List ℚ → Except Unit (List ℚ × List (List RVal)))
    (fm : List ℚ → List RVal) (fluxM sigmaM : List RVal)
    (model_lsf model_redshift : Bool) :
    List (List ℚ) → List StartResult × Nat
  | [] => ([], 0)
  | p0 :: rest =>
    let p0a := p0 ++ (if model_redshift then [(0 : ℚ)] else []) ++
      (if model_lsf then [(5 : ℚ)] else [])
    let tailRes := runStarts curveFit fm fluxM sigmaM model_lsf model_redshift rest
    match curveFit p0a with
    | Except.error _ => (tailRes.1, tailRes.2 + 1)
    | Except.ok (opl, cov) =>
      let fvec := fm opl
      (⟨opl, cov, p0a, fvec, chiSqOf fvec fluxM sigmaM⟩ :: tailRes.1,
        tailRes.2 + 1)

/-- Index-and-value of the smallest non-`nan` entry of a list (first
occurrence on ties), or `none` when every entry is `nan`. -/
def nanargminAux : List RVal → Option (Nat × RVal)
  | [] => none
  | x :: xs =>
    match nanargminAux xs with
    | none => if x = RVal.nan then none else some (0, x)
    | some (k, b) =>
      if x = RVal.nan then some (k + 1, b)
      else if RVal.leb x b then some (0, x) else some (k + 1, b)

/-- Embedding of `np.nanargmin` (line 890): the index of the smallest
non-`nan` entry, raising `ValueError` when every entry is `nan`. -/
def nanargmin (xs : List RVal) : Except String Nat :=
  match nanargminAux xs with
  | none => Except.error "ValueError: All-NaN slice encountered"
  | some kb => Except.ok kb.1

/-- Insertion into a `leb`-sorted list (used only on `nan`-free lists). -/
def insertSorted (x : RVal) : List RVal → List RVal
  | [] => [x]
  | y :: ys => if RVal.leb x y then x :: y :: ys else y :: insertSorted x ys

/-- Insertion sort by `RVal.leb`. -/
def sortR (xs : List RVal) : List RVal := xs.foldr insertSorted []

/-- Embedding of `np.nanmedian` (line 917): drop the `nan`s, sort, take the
middle element (odd count) or the mean of the two middle elements (even
count); an all-`nan` input gives `nan`. -/
def nanmedian (xs : List RVal) : RVal :=
  let good := sortR (xs.filter (fun x => x != RVal.nan))
  let n := good.length
  if n = 0 then RVal.nan
  else if n % 2 = 1 then good.getD (n / 2) RVal.nan
  else ((good.getD (n / 2 - 1) RVal.nan).add (good.getD (n / 2) RVal.nan)).div
    (RVal.val 2)

/-- The diagnostic dictionary assembled by `_fit_spectrum`.  The Python dict
holds only the keys its path populates; fields a failure path leaves unset
keep their defaults here (`best_result_index` is `none` when absent).  The
constant optimizer tolerances copied into the dict at lines 921-922 carry no
information and are not recorded. -/
structure FitMeta where
  fail_message : Option String := none
  p0 : List ℚ := []
  fvec : List RVal := []
  chi_sq : RVal := RVal.nan
  kernel : RVal := RVal.val 0
  redshift : RVal := RVal.val 0
  best_result_index : Option Nat := none
  derivatives_used : Bool := false
  snr : RVal := RVal.nan
  r_chi_sq : RVal := RVal.nan
  model_flux : List RVal := []
deriving DecidableEq, Inhabited

/-- The `(labels, cov, metadata)` triple returned by `_fit_spectrum`. -/
structure FitOutput where
  labels : List RVal
  cov : Option (List (List RVal))
  meta : FitMeta
deriving DecidableEq

/-- Lines 768-771: the no-information early return. -/
def noInfoOutput (n_labels : Nat) : FitOutput :=
  ⟨List.replicate n_labels RVal.nan, none,
    { fail_message := some "Pixels contained no information" }⟩

/-- Lines 886-888: the all-starts-failed return. -/
def noResultsOutput (n_labels : Nat) : FitOutput :=
  ⟨List.replicate n_labels RVal.nan, none,
    { fail_message := some "No results found" }⟩

/-- Embedding of the selection and reporting tail of `_fit_spectrum`
(lines 890-924): take the start with index `k`; discard (set all-`nan`) the
optimized labels when they equal their initial point (`np.allclose` modelled
as exact equality); strip the LSF kernel and then the redshift nuisance
parameter off the end, recording them in the metadata (the kernel via its
absolute value); assemble the diagnostic record. -/
def selectOutput (theta : List (List ℚ)) (vec : List RVal → List RVal)
    (n_fiducials : Nat) (use : List Bool) (fluxM : List RVal)
    (nivar : List ℚ) (model_lsf model_redshift : Bool) (dfunPresent : Bool)
    (results : List StartResult) (k : Nat) : FitOutput :=
  let r := results.getD k default
  let oplR : List RVal :=
    if r.op_labels = r.p0 then r.op_labels.map (fun _ => RVal.nan)
    else r.op_labels.map RVal.val
  let kr1 : RVal × List RVal :=
    if model_lsf then (oplR.getLastD RVal.nan, oplR.dropLast)
    else (RVal.val 0, oplR)
  let kr2 : RVal × List RVal :=
    if model_redshift then (kr1.2.getLastD RVal.nan, kr1.2.dropLast)
    else (RVal.val 0, kr1.2)
  { labels := kr2.2
    cov := some r.cov
    meta :=
      { fail_message := none
        p0 := r.p0
        fvec := r.fvec
        chi_sq := r.chi_sq
        kernel := kr1.1.absV
        redshift := kr2.1
        best_result_index := some k
        derivatives_used := dfunPresent
        snr := nanmedian ((fluxM.zip (maskFilter use nivar)).map
          (fun p => p.1.mul (RVal.sqrt (RVal.val p.2))))
        r_chi_sq := r.chi_sq.div
          (RVal.val ((countTrue use : ℚ) - n_fiducials - 1))
        model_flux := thetaDotVec theta (vec kr2.2) } }

/-- The inputs of `_fit_spectrum`: the data `(normalized_flux,
normalized_ivar)`, the trained model state `(dispersion, theta, s2)`, the
multi-start initial labels, the opaque external collaborators (vectorizer,
Gaussian filter, `np.interp`, `curve_fit` — the latter returning `RuntimeError`
exactly when the source's `except RuntimeError` fires), the vectorizer sizes
(`scales.size` and `len(fiducials)`), the nuisance-parameter switches, the
`max_abs_velocity` keyword, and the derivative request/probe outcome. -/
structure FitParams where
  flux : List RVal
  nivar : List ℚ
  s2 : List ℚ
  dispersion : List ℚ
  theta : List (List ℚ)
  initial_labels : List (List ℚ)
  vec : List RVal → List RVal
  gauss : List RVal → ℚ → List RVal
  interp : ℚ → List RVal → List RVal
  curveFit : List ℚ → Except Unit (List ℚ × List (List RVal))
  n_labels : Nat
  n_fiducials : Nat
  model_lsf : Bool
  model_redshift : Bool
  max_abs_velocity : ℚ
  dfun_requested : Bool
  deriv_status : DerivStatus

/-- The forward model `f` as `_fit_spectrum` instantiates it: the
`max_abs_velocity` keyword is passed through `abs` (line 776), the pixel scale
comes from the dispersion grid (line 808), and the mask is the finiteness
mask. -/
def spectrumModel (P : FitParams) : List ℚ → List RVal :=
  fModel P.theta P.vec P.gauss P.interp P.n_labels P.model_lsf
    P.model_redshift |P.max_abs_velocity| (meanPixelScale P.dispersion)
    (useMask P.flux P.nivar P.s2)

/-- The completed multi-start results and `curve_fit` call count of
`_fit_spectrum` (lines 860-884), fed the masked flux and masked adjusted
sigma (lines 773-774). -/
def spectrumStarts (P : FitParams) : List StartResult × Nat :=
  runStarts P.curveFit (spectrumModel P)
    (maskFilter (useMask P.flux P.nivar P.s2) P.flux)
    (maskFilter (useMask P.flux P.nivar P.s2) (adjSigmaList P.nivar P.s2))
    P.model_lsf P.model_redshift P.initial_labels

/-- Embedding of `_fit_spectrum` (lines 727-924), paired with the number of
`curve_fit` invocations made (the call-count instrumentation the spec asks
for).  `Except.error` carries any Python exception that escapes the
function. -/
def fit_spectrum (P : FitParams) : Except String (FitOutput × Nat) :=
  let use := useMask P.flux P.nivar P.s2
  if use.any id = false then Except.ok (noInfoOutput P.n_labels, 0)
  else
    match resolveDfun P.dfun_requested P.deriv_status with
    | Except.error e => Except.error e
    | Except.ok dfunPresent =>
      let rc := spectrumStarts P
      if rc.1 = [] then Except.ok (noResultsOutput P.n_labels, rc.2)
      else
        match nanargmin (rc.1.map StartResult.chi_sq) with
        | Except.error e => Except.error e
        | Except.ok k =>
          Except.ok (selectOutput P.theta P.vec P.n_fiducials use
            (maskFilter use P.flux) P.nivar P.model_lsf P.model_redshift
            dfunPresent rc.1 k, rc.2)

/-! ## Fit dispatch: `CannonModel.fit` (cannon.py lines 558-610) -/

/-- The ways `initial_labels` can arrive at `CannonModel.fit`: unset, a single
1-D label vector, or a 2-D array of starts. -/
inductive LabelsArg where
  | unset
  | oneD (v : List ℚ)
  | twoD (m : List (List ℚ))

/-- Lines 591-593 of `CannonModel.fit`: an unset `initial_labels` defaults to
`self.vectorizer.fiducials`, and the result is promoted with `np.atleast_2d`
(a 1-D vector of length L becomes the single row of a 1×L array). -/
def fitInitialLabels (arg : LabelsArg) (fiducials : List ℚ) :
    List (List ℚ) :=
  match arg with
  | .unset => [fiducials]
  | .oneD v => [v]
  | .twoD m => m

/-! ## Concrete instances used by counterexamples and witnesses -/

/-- A concrete fitting callable that records whether it received a warm-start
initial theta: a cold start fits coefficient 7, a supplied initial theta
`[t, ...]` fits `t + 1`; the scatter column is always 9. -/
def probeFit : FitFun := fun row =>
  Except.ok [(match row.1 with | none => (7 : ℚ) | some t => t.headD 0 + 1), 9]

/-- Two cold-start pixel rows. -/
def probeRows : List PixRow := [(none, 0, [1], [1]), (none, 0, [1], [1])]

/-- A one-usable-pixel `_fit_spectrum` input with redshift fitting enabled
whose single `curve_fit` start succeeds but returns an out-of-range velocity,
so its forward model, and hence its chi-square, is `nan`. -/
def allNanChiParams : FitParams :=
  { flux := [RVal.val 1]
    nivar := [1]
    s2 := [0]
    dispersion := [1, 2]
    theta := [[1]]
    initial_labels := [[2]]
    vec := fun v => v
    gauss := fun y _ => y
    interp := fun _ y => y
    curveFit := fun _ => Except.ok ([2, 100], [[RVal.val 1]])
    n_labels := 1
    n_fiducials := 1
    model_lsf := false
    model_redshift := true
    max_abs_velocity := 10
    dfun_requested := false
    deriv_status := DerivStatus.available }

/-- A one-usable-pixel `_fit_spectrum` input whose every `curve_fit` call
raises `RuntimeError`. -/
def allFailParams : FitParams :=
  { flux := [RVal.val 1]
    nivar := [1]
    s2 := [0]
    dispersion := [1, 2]
    theta := [[1]]
    initial_labels := [[2]]
    vec := fun v => v
    gauss := fun y _ => y
    interp := fun _ y => y
    curveFit := fun _ => Except.error ()
    n_labels := 1
    n_fiducials := 1
    model_lsf := false
    model_redshift := false
    max_abs_velocity := 10
    dfun_requested := false
    deriv_status := DerivStatus.notImplemented }

/-- A one-usable-pixel `_fit_spectrum` input that requests derivative
information from a vectorizer that supplies an analytic derivative. -/
def derivParams : FitParams :=
  { flux := [RVal.val 1]
    nivar := [1]
    s2 := [0]
    dispersion := [1, 2]
    theta := [[1]]
    initial_labels := [[2]]
    vec := fun v => v
    gauss := fun y _ => y
    interp := fun _ y => y
    curveFit := fun _ => Except.ok ([3], [[RVal.val 1]])
    n_labels := 1
    n_fiducials := 1
    model_lsf := false
    model_redshift := false
    max_abs_velocity := 10
    dfun_requested := true
    deriv_status := DerivStatus.available }

/-- A `_fit_spectrum` input whose only pixel has zero inverse variance, so the
finiteness mask excludes everything. -/
def noInfoParams : FitParams :=
  { flux := [RVal.val 1]
    nivar := [0]
    s2 := [0]
    dispersion := [1, 2]
    theta := [[1]]
    initial_labels := [[2]]
    vec := fun v => v
    gauss := fun y _ => y
    interp := fun _ y => y
    curveFit := fun _ => Except.ok ([3], [[RVal.val 1]])
    n_labels := 1
    n_fiducials := 1
    model_lsf := false
    model_redshift := false
    max_abs_velocity := 10
    dfun_requested := false
    deriv_status := DerivStatus.notImplemented }

/-- A redshift-enabled `_fit_spectrum` input used to evaluate the forward
model at an out-of-range velocity. -/
def velParams : FitParams :=
  { flux := [RVal.val 1]
    nivar := [1]
    s2 := [0]
    dispersion := [1, 2]
    theta := [[1]]
    initial_labels := [[3]]
    vec := fun v => v
    gauss := fun y _ => y
    interp := fun _ y => y
    curveFit := fun _ => Except.ok ([3, 0], [[RVal.val 1]])
    n_labels := 1
    n_fiducials := 1
    model_lsf := false
    model_redshift := true
    max_abs_velocity := 10
    dfun_requested := false
    deriv_status := DerivStatus.notImplemented }

/-- A one-usable-pixel `_fit_spectrum` input with a single initial-label row
and a succeeding `curve_fit`. -/
def oneStartParams : FitParams :=
  { flux := [RVal.val 1]
    nivar := [1]
    s2 := [0]
    dispersion := [1, 2]
    theta := [[1]]
    initial_labels := [[2]]
    vec := fun v => v
    gauss := fun y _ => y
    interp := fun _ y => y
    curveFit := fun _ => Except.ok ([3], [[RVal.val 1]])
    n_labels := 1
    n_fiducials := 1
    model_lsf := false
    model_redshift := false
    max_abs_velocity := 10
    dfun_requested := false
    deriv_status := DerivStatus.notImplemented }

/-- The output `fit_spectrum` computes on `oneStartParams`. -/
def oneStartOutput : FitOutput :=
  { labels := [RVal.val 3]
    cov := some [[RVal.val 1]]
    meta :=
      { fail_message := none
        p0 := [2]
        fvec := [RVal.val 3]
        chi_sq := RVal.val 4
        kernel := RVal.val 0
        redshift := RVal.val 0
        best_result_index := some 0
        derivatives_used := false
        snr := RVal.val 1
        r_chi_sq := RVal.val (-4)
        model_flux := [RVal.val 3] } }

deriving instance DecidableEq for Except

/-! ## Theorems -/

/-- Helper: with an all-zero inverse-variance vector the adjusted inverse
variance vanishes identically. -/
theorem adjustedIvar_zero {s : ℕ} (nivar : Fin s → ℚ) (s2 : ℚ)
    (h : ∀ i, nivar i = 0) : adjustedIvar nivar s2 = fun _ => 0 := by
  funext i
  simp [adjustedIvar, h i]

/-- Helper: with an all-zero inverse-variance vector the normal-equations
matrix is the zero matrix. -/
theorem normalMatrix_zero {s p : ℕ} (D : Matrix (Fin s) (Fin p) ℚ)
    (nivar : Fin s → ℚ) (s2 : ℚ) (h : ∀ i, nivar i = 0) :
    normalMatrix D nivar s2 = 0 := by
  have hW : weightedDesign D nivar s2 = 0 := by
    ext i j
    simp [weightedDesign, adjustedIvar, h i]
  rw [normalMatrix, hW, Matrix.mul_zero]

/-- C6: on a singular normal-equations matrix `Dᵗ·CiA` — which every all-zero
inverse-variance input produces, regardless of the flux values — `_fit_theta`
returns the canonical default coefficient vector `[1, 0, ..., 0]`, a null
inverse-covariance marker (`None`), and the adjusted inverse-variance vector
`ivar/(1 + ivar·s²)`; on a nonsingular matrix it returns the weighted
normal-equations solution (the returned coefficients solve
`(Dᵗ·CiA)·θ = Dᵗ·(flux·ivar)`) together with its inverse-covariance matrix. -/
theorem fit_theta_spec {s p : ℕ} (hp : 0 < p)
    (nflux nivar : Fin s → ℚ) (s2 : ℚ) (D : Matrix (Fin s) (Fin p) ℚ) :
    ((∀ i, nivar i = 0) → (normalMatrix D nivar s2).det = 0) ∧
    ((normalMatrix D nivar s2).det = 0 →
      fit_theta nflux nivar s2 D = (defaultTheta p, none, adjustedIvar nivar s2)) ∧
    ((normalMatrix D nivar s2).det ≠ 0 →
      ∃ C, fit_theta nflux nivar s2 D =
            (C.mulVec (weightedRHS D nflux nivar s2), some C, adjustedIvar nivar s2) ∧
          normalMatrix D nivar s2 * C = 1 ∧
          (normalMatrix D nivar s2).mulVec (C.mulVec (weightedRHS D nflux nivar s2)) =
            weightedRHS D nflux nivar s2) := by
  refine ⟨?_, ?_, ?_⟩
  · intro h
    have : Nonempty (Fin p) := ⟨⟨0, hp⟩⟩
    rw [normalMatrix_zero D nivar s2 h]
    exact Matrix.det_zero this
  · intro h
    simp only [fit_theta]
    rw [if_pos h]
  · intro h
    refine ⟨(normalMatrix D nivar s2).det⁻¹ • (normalMatrix D nivar s2).adjugate,
      ?_, ?_, ?_⟩
    · simp only [fit_theta]
      rw [if_neg h]
    · rw [Matrix.mul_smul, Matrix.mul_adjugate, smul_smul,
        inv_mul_cancel₀ h, one_smul]
    · rw [Matrix.mulVec_mulVec, Matrix.mul_smul, Matrix.mul_adjugate, smul_smul,
        inv_mul_cancel₀ h, one_smul, Matrix.one_mulVec]

/-- Witness for `fit_theta_spec` at a concrete one-pixel, one-term input. -/
theorem fit_theta_spec_witness :
    0 < 1 ∧
    (((∀ i, (![0] : Fin 1 → ℚ) i = 0) → (normalMatrix !![(2:ℚ)] ![0] 0).det = 0) ∧
    ((normalMatrix !![(2:ℚ)] ![0] 0).det = 0 →
      fit_theta ![3] ![0] 0 !![(2:ℚ)] = (defaultTheta 1, none, adjustedIvar ![0] 0)) ∧
    ((normalMatrix !![(2:ℚ)] ![0] 0).det ≠ 0 →
      ∃ C, fit_theta ![3] ![0] 0 !![(2:ℚ)] =
            (C.mulVec (weightedRHS !![(2:ℚ)] ![3] ![0] 0), some C, adjustedIvar ![0] 0) ∧
          normalMatrix !![(2:ℚ)] ![0] 0 * C = 1 ∧
          (normalMatrix !![(2:ℚ)] ![0] 0).mulVec
              (C.mulVec (weightedRHS !![(2:ℚ)] ![3] ![0] 0)) =
            weightedRHS !![(2:ℚ)] ![3] ![0] 0)) :=
  ⟨by decide, fit_theta_spec (by decide) ![3] ![0] 0 !![(2:ℚ)]⟩

/-- C1 (code bug): the claim describes the intended `_fit_pixel` contract, but
the function body begins with `raise a` (line 960) where `a` is an undefined
name, so every call — in particular every all-zero inverse-variance pixel —
raises `NameError` instead of returning the canonical default coefficients;
and even the dead code after that line reads the undefined name `scatter` on
the fixed-scatter all-zero-ivar path, so it too raises there rather than
returning `[1, 0, ..., 0] ++ [scatter]` (only the joint-mode arm of the dead
short circuit returns the default coefficients with zero scatter). -/
theorem fit_pixel_code_bug (it : Option (List ℚ)) (s2 : ℚ)
    (nflux nivar : List ℚ) (design : List (List ℚ)) (nterms : Nat)
    (hz : nivar.all (fun v => v == 0) = true) :
    (∀ fs, fit_pixel it s2 nflux nivar design fs =
      Except.error "NameError: name a is not defined") ∧
    fit_pixel_dead_body nflux nivar nterms true =
      Except.error "NameError: name scatter is not defined" ∧
    fit_pixel_dead_body nflux nivar nterms false =
      Except.ok ((1 :: List.replicate (nterms - 1) 0) ++ [0]) := by
  refine ⟨fun _ => rfl, ?_, ?_⟩ <;> simp [fit_pixel_dead_body, hz]

/-- Witness for `fit_pixel_code_bug` at a concrete all-zero-ivar pixel. -/
theorem fit_pixel_code_bug_witness :
    ([(0 : ℚ), 0].all (fun v => v == 0) = true) ∧
    ((∀ fs, fit_pixel none 0 [1, 2] [0, 0] [[1, 0], [1, 0]] fs =
      Except.error "NameError: name a is not defined") ∧
    fit_pixel_dead_body [1, 2] [0, 0] 2 true =
      Except.error "NameError: name scatter is not defined" ∧
    fit_pixel_dead_body [1, 2] [0, 0] 2 false =
      Except.ok ((1 :: List.replicate (2 - 1) 0) ++ [0])) :=
  ⟨by decide,
    fit_pixel_code_bug none 0 [1, 2] [0, 0] [[1, 0], [1, 0]] 2 (by decide)⟩

/-- C2 counterexample: at a concrete one-pixel input, calling `train` with
`fixed_scatter = False` does not run a joint optimization — the assertion at
line 88 (`assert fixed_scatter, "Are you refactoring?"`) fails immediately. -/
theorem train_fixed_scatter_false_cex :
    trainModel (fun _ => Except.ok [1, 0]) false none (some [0]) none false
      [[1]] [[1]] 1 1 = Except.error "AssertionError: Are you refactoring?" :=
  rfl

/-- C2 (amended): `train` asserts `fixed_scatter`, so calling it with
`fixed_scatter = False` raises `AssertionError` before any per-pixel fitting,
for every model state and training set — the joint mode is unreachable from
`train`.  The joint objective `_model_pixel` itself does recompute the
adjusted inverse variance `ivar/(1 + ivar·scatter²)` from the trial scatter at
each evaluation. -/
theorem train_fixed_scatter_false_asserts (f : FitFun) (pool : Bool)
    (theta : Option (List (List ℚ))) (s2 : Option (List ℚ))
    (unp : Option Bool) (fluxT ivarT : List (List ℚ)) (npix nterms : Nat) :
    trainModel f pool theta s2 unp false fluxT ivarT npix nterms =
      Except.error "AssertionError: Are you refactoring?" ∧
    (∀ th sc fl iv D, model_pixel th sc fl iv D =
      chi_sq_model th D fl (iv.map (fun v => v / (1 + v * sc ^ 2)))) :=
  ⟨rfl, fun _ _ _ _ _ => rfl⟩

/-- C3 counterexample: at a concrete one-pixel input, calling `train` with
`fixed_scatter = True` while `s2` is unset does not raise `ValueError` —
training completes, with `s2` silently substituted by zero (lines 89-91 run
before the guard at lines 93-95). -/
theorem train_s2_unset_cex :
    trainModel (fun _ => Except.ok [1, 0]) false none none none true
      [[1]] [[1]] 1 1 = Except.ok ([[1]], [0]) := by
  decide

/-- C3 (amended): when `s2` is unset, `train` warns, substitutes `s2 = 0`, and
proceeds — its result equals training with `s2` set to the all-zero per-pixel
vector — so the `ValueError` guard at lines 93-95 is dead code and training
continues with the substituted scatter. -/
theorem train_s2_unset_substitutes (f : FitFun) (pool : Bool)
    (theta : Option (List (List ℚ))) (unp : Option Bool) (fs : Bool)
    (fluxT ivarT : List (List ℚ)) (npix nterms : Nat) :
    trainModel f pool theta none unp fs fluxT ivarT npix nterms =
      trainModel f pool theta (some (List.replicate npix 0)) unp fs
        fluxT ivarT npix nterms :=
  rfl

/-- Helper: a successful warm-start loop run produces one fitted row per
pixel; its first row comes from the supplied accumulator when one is supplied;
and every later pixel is fitted from the previous fitted row truncated to the
design-matrix width. -/
theorem warmLoop_ok_spec (f : FitFun) (nterms : Nat) :
    ∀ (rows : List PixRow) (last : Option (List ℚ)) (out : List (List ℚ)),
      warmLoop f nterms rows last = Except.ok out →
      out.length = rows.length ∧
      (∀ t, last = some t → 0 < rows.length →
        f (some t, (rows.getD 0 (none, 0, [], [])).2) =
          Except.ok (out.getD 0 [])) ∧
      (∀ i, i + 1 < rows.length →
        f (some ((out.getD i []).take nterms),
            (rows.getD (i + 1) (none, 0, [], [])).2) =
          Except.ok (out.getD (i + 1) [])) := by
  intro rows
  induction rows with
  | nil =>
    intro last out h
    simp only [warmLoop] at h
    injection h with h
    subst h
    refine ⟨rfl, ?_, ?_⟩
    · intro t _ h0
      simp at h0
    · intro i hi
      simp at hi
  | cons row rest ih =>
    intro last out h
    simp only [warmLoop] at h
    rcases last with _ | t0
    · rcases hf : f row with e | res
      · rw [hf] at h
        simp at h
      · rw [hf] at h
        simp only at h
        rcases hrest : warmLoop f nterms rest (some (res.take nterms))
          with e2 | outRest
        · rw [hrest] at h
          simp at h
        · rw [hrest] at h
          simp only at h
          injection h with h
          subst h
          obtain ⟨ihlen, ihhead, ihstep⟩ :=
            ih (some (res.take nterms)) outRest hrest
          refine ⟨by simp [ihlen], ?_, ?_⟩
          · intro t hlast hpos
            exact absurd hlast (by simp)
          · intro i hi
            cases i with
            | zero =>
              have hpos : 0 < rest.length := by
                simp at hi
                omega
              simpa using ihhead (res.take nterms) rfl hpos
            | succ j =>
              have hj : j + 1 < rest.length := by
                simp at hi
                omega
              simpa using ihstep j hj
    · rcases hf : f (some t0, row.2) with e | res
      · rw [hf] at h
        simp at h
      · rw [hf] at h
        simp only at h
        rcases hrest : warmLoop f nterms rest (some (res.take nterms))
          with e2 | outRest
        · rw [hrest] at h
          simp at h
        · rw [hrest] at h
          simp only at h
          injection h with h
          subst h
          obtain ⟨ihlen, ihhead, ihstep⟩ :=
            ih (some (res.take nterms)) outRest hrest
          refine ⟨by simp [ihlen], ?_, ?_⟩
          · intro t hlast hpos
            injection hlast with hlast
            subst hlast
            simpa using hf
          · intro i hi
            cases i with
            | zero =>
              have hpos : 0 < rest.length := by
                simp at hi
                omega
              simpa using ihhead (res.take nterms) rfl hpos
            | succ j =>
              have hj : j + 1 < rest.length := by
                simp at hi
                omega
              simpa using ihstep j hj

/-- C9 counterexample: with a pool present and the neighbour warm start
requested on a cold start, `train` dispatches through `pool.map` without the
warm start (line 159 requires `self.pool is None`): a fitting callable that
fits 7 on a cold start and `t + 1` from a supplied initial theta `[t]` yields
coefficients `[[7], [7]]` under a pool but `[[7], [8]]` sequentially — so the
warm start is not applied when a pool is present, contradicting the claim. -/
theorem train_warm_start_pool_cex :
    (trainModel probeFit true none (some [0, 0]) (some true) true
        [[1], [1]] [[1], [1]] 2 1 = Except.ok ([[7], [7]], [9, 9])) ∧
    (trainModel probeFit false none (some [0, 0]) (some true) true
        [[1], [1]] [[1], [1]] 2 1 = Except.ok ([[7], [8]], [9, 9])) := by
  exact ⟨by decide, by decide⟩

/-- C9 (amended): (i) when a pool is present, a requested neighbour warm start
is ignored — training dispatches exactly as with the warm start disabled;
(ii) when the caller supplies pre-existing coefficients, the warm start is
disabled even without a pool; (iii) without a pool on a cold start, pixels are
processed sequentially in index order and every pixel after the first is
fitted from the previous pixel's fitted row truncated to the design-matrix
width (the coefficient vector without the scatter term). -/
theorem train_warm_start_spec (f : FitFun) (s2 : Option (List ℚ))
    (fluxT ivarT : List (List ℚ)) (npix nterms : Nat) :
    (∀ theta unp, trainRaw f true theta s2 unp true fluxT ivarT npix nterms =
      trainRaw f true theta s2 (some false) true fluxT ivarT npix nterms) ∧
    (∀ t unp, trainRaw f false (some t) s2 unp true fluxT ivarT npix nterms =
      trainRaw f false (some t) s2 (some false) true fluxT ivarT npix nterms) ∧
    (∀ (rows : List PixRow) (out : List (List ℚ)),
      warmLoop f nterms rows none = Except.ok out →
      out.length = rows.length ∧
      ∀ i, i + 1 < rows.length →
        f (some ((out.getD i []).take nterms),
            (rows.getD (i + 1) (none, 0, [], [])).2) =
          Except.ok (out.getD (i + 1) [])) := by
  refine ⟨?_, ?_, ?_⟩
  · intro theta unp
    rfl
  · intro t unp
    rcases unp with _ | b
    · rfl
    · cases b <;> rfl
  · intro rows out h
    obtain ⟨hlen, _, hstep⟩ := warmLoop_ok_spec f nterms rows none out h
    exact ⟨hlen, hstep⟩

/-- Witness for `train_warm_start_spec`: the sequential cold-start loop at a
concrete two-pixel input, checking the warm-start relation between the first
and second fitted rows. -/
theorem train_warm_start_spec_witness :
    warmLoop probeFit 1 probeRows none = Except.ok [[7, 9], [8, 9]] ∧
    0 + 1 < probeRows.length ∧
    probeFit (some ((([[7, 9], [8, 9]] : List (List ℚ)).getD 0 []).take 1),
        (probeRows.getD (0 + 1) (none, 0, [], [])).2) =
      Except.ok (([[7, 9], [8, 9]] : List (List ℚ)).getD (0 + 1) []) :=
  ⟨by decide, by decide,
    ((train_warm_start_spec probeFit (some [0, 0]) [[1], [1]] [[1], [1]] 2 1).2.2
        probeRows [[7, 9], [8, 9]] (by decide)).2 0 (by decide)⟩

/-- Helper: `leb` is reflexive away from `nan`. -/
theorem RVal.leb_of_refl {x : RVal} (hx : x ≠ RVal.nan) :
    RVal.leb x x = true := by
  cases x <;> simp_all [RVal.leb]

/-- Helper: `leb` is transitive. -/
theorem RVal.leb_trans {x y z : RVal} (h1 : RVal.leb x y = true)
    (h2 : RVal.leb y z = true) : RVal.leb x z = true := by
  cases x <;> cases y <;> cases z <;> simp_all [RVal.leb] <;> exact h1.trans h2

/-- Helper: `leb` is total away from `nan`. -/
theorem RVal.leb_total {x y : RVal} (hx : x ≠ RVal.nan) (hy : y ≠ RVal.nan) :
    RVal.leb x y = true ∨ RVal.leb y x = true := by
  cases x <;> cases y <;> simp_all [RVal.leb] <;> exact le_total _ _

/-- Helper: `nanargminAux` returns `none` only when every entry is `nan`. -/
theorem nanargminAux_none : ∀ (xs : List RVal), nanargminAux xs = none →
    ∀ v ∈ xs, v = RVal.nan := by
  intro xs
  induction xs with
  | nil =>
    intro _ v hv
    simp at hv
  | cons x rest ih =>
    intro h v hv
    simp only [nanargminAux] at h
    rcases haux : nanargminAux rest with _ | kb
    · rw [haux] at h
      by_cases hx : x = RVal.nan
      · rcases List.mem_cons.1 hv with hv0 | hv1
        · exact hv0.trans hx
        · exact ih haux v hv1
      · simp [hx] at h
    · rw [haux] at h
      by_cases hx : x = RVal.nan
      · simp [hx] at h
      · by_cases hl : RVal.leb x kb.2 = true <;> simp [hx, hl] at h

/-- Helper: all-`nan` input makes `nanargminAux` return `none`. -/
theorem nanargminAux_all_nan : ∀ (xs : List RVal),
    (∀ v ∈ xs, v = RVal.nan) → nanargminAux xs = none := by
  intro xs
  induction xs with
  | nil =>
    intro _
    rfl
  | cons x rest ih =>
    intro h
    have hx : x = RVal.nan := h x (List.mem_cons_self x rest)
    have hrest : nanargminAux rest = none :=
      ih (fun v hv => h v (List.mem_cons_of_mem x hv))
    simp [nanargminAux, hrest, hx]

/-- Helper: a successful `nanargminAux` returns the position and value of a
least non-`nan` entry (the first such position on ties). -/
theorem nanargminAux_spec : ∀ (xs : List RVal) (k : Nat) (b : RVal),
    nanargminAux xs = some (k, b) →
    k < xs.length ∧ xs.getD k RVal.nan = b ∧ b ≠ RVal.nan ∧
    ∀ j, j < xs.length → xs.getD j RVal.nan ≠ RVal.nan →
      RVal.leb b (xs.getD j RVal.nan) = true := by
  intro xs
  induction xs with
  | nil =>
    intro k b h
    simp [nanargminAux] at h
  | cons x rest ih =>
    intro k b h
    simp only [nanargminAux] at h
    rcases haux : nanargminAux rest with _ | kb
    · rw [haux] at h
      by_cases hx : x = RVal.nan
      · simp [hx] at h
      · simp only [hx, if_false] at h
        injection h with h
        cases h
        refine ⟨by simp, by simp, hx, ?_⟩
        intro j hj hne
        cases j with
        | zero =>
          simpa using RVal.leb_of_refl hx
        | succ j' =>
          exfalso
          have hj' : j' < rest.length := by
            simp at hj
            omega
          have hmem : rest.getD j' RVal.nan ∈ rest := by
            rw [List.getD_eq_getElem rest RVal.nan hj']
            exact List.getElem_mem hj'
          have := nanargminAux_none rest haux _ hmem
          simp only [List.getD_cons_succ] at hne
          exact hne this
    · rcases kb with ⟨k', b'⟩
      obtain ⟨ihlt, ihget, ihnan, ihmin⟩ := ih k' b' haux
      rw [haux] at h
      simp only at h
      by_cases hx : x = RVal.nan
      · rw [if_pos hx] at h
        injection h with h
        cases h
        refine ⟨by simp; omega, by simpa using ihget, ihnan, ?_⟩
        intro j hj hne
        cases j with
        | zero =>
          exfalso
          simp only [List.getD_cons_zero] at hne
          exact hne hx
        | succ j' =>
          have hj' : j' < rest.length := by
            simp at hj
            omega
          simpa using ihmin j' hj' (by simpa using hne)
      · rw [if_neg hx] at h
        by_cases hl : RVal.leb x b' = true
        · rw [if_pos hl] at h
          injection h with h
          cases h
          refine ⟨by simp, by simp, hx, ?_⟩
          intro j hj hne
          cases j with
          | zero =>
            simpa using RVal.leb_of_refl hx
          | succ j' =>
            have hj' : j' < rest.length := by
              simp at hj
              omega
            simp only [List.getD_cons_succ] at hne ⊢
            exact RVal.leb_trans hl (ihmin j' hj' hne)
        · rw [if_neg hl] at h
          injection h with h
          cases h
          refine ⟨by simp; omega, by simpa using ihget, ihnan, ?_⟩
          intro j hj hne
          cases j with
          | zero =>
            simp only [List.getD_cons_zero] at hne ⊢
            rcases RVal.leb_total ihnan hx with hgood | hbad
            · exact hgood
            · exact absurd hbad (by simpa using hl)
          | succ j' =>
            have hj' : j' < rest.length := by
              simp at hj
              omega
            simpa using ihmin j' hj' (by simpa using hne)

/-- Helper: the multi-start loop calls `curve_fit` exactly once per initial
point. -/
theorem runStarts_count (cf : List ℚ → Except Unit (List ℚ × List (List RVal)))
    (fm : List ℚ → List RVal) (fluxM sigmaM : List RVal)
    (model_lsf model_redshift : Bool) :
    ∀ inits, (runStarts cf fm fluxM sigmaM model_lsf model_redshift inits).2 =
      inits.length := by
  intro inits
  induction inits with
  | nil => rfl
  | cons p rest ih =>
    simp only [runStarts]
    rcases h : cf (p ++ (if model_redshift then [(0 : ℚ)] else []) ++
        (if model_lsf then [(5 : ℚ)] else [])) with e | pr
    · simp [h, ih]
    · rcases pr with ⟨opl, cov⟩
      simp [h, ih]

/-- Helper: no non-raising path of the derivative probe installs a `Dfun`. -/
theorem resolveDfun_ok_false (r : Bool) (st : DerivStatus) (b : Bool)
    (h : resolveDfun r st = Except.ok b) : b = false := by
  cases r <;> cases st <;> simp_all [resolveDfun]

/-- C7: when the finiteness mask (built from `adjusted_sigma * flux`, which
excludes zero-ivar and non-finite-flux pixels) excludes every pixel,
`_fit_spectrum` returns immediately: an all-`nan` label vector of length
`N_labels` (the vectorizer's `scales.size`), a `None` covariance, metadata
whose failure reason is "Pixels contained no information", and zero
`curve_fit` invocations — the optimizer is never invoked. -/
theorem fit_spectrum_no_info (P : FitParams)
    (hmask : (useMask P.flux P.nivar P.s2).any id = false) :
    fit_spectrum P = Except.ok (noInfoOutput P.n_labels, 0) ∧
    (noInfoOutput P.n_labels).labels = List.replicate P.n_labels RVal.nan ∧
    (noInfoOutput P.n_labels).cov = none ∧
    (noInfoOutput P.n_labels).meta.fail_message =
      some "Pixels contained no information" := by
  refine ⟨?_, rfl, rfl, rfl⟩
  simp only [fit_spectrum]
  rw [if_pos hmask]

/-- Witness for `fit_spectrum_no_info` at a concrete zero-ivar spectrum. -/
theorem fit_spectrum_no_info_witness :
    (useMask noInfoParams.flux noInfoParams.nivar noInfoParams.s2).any id =
      false ∧
    fit_spectrum noInfoParams = Except.ok (noInfoOutput noInfoParams.n_labels, 0) :=
  ⟨rfl, (fit_spectrum_no_info noInfoParams rfl).1⟩

/-- C4 counterexample: at a concrete input whose single start completes with a
`nan` chi-square (an out-of-range velocity makes the forward model all-`nan`),
`_fit_spectrum` raises `ValueError` out of `np.nanargmin` instead of returning
a NaN-filled result with failure metadata. -/
theorem fit_spectrum_all_nan_chi_cex :
    fit_spectrum allNanChiParams =
      Except.error "ValueError: All-NaN slice encountered" := by
  decide

/-- C4 (amended): in `_fit_spectrum`, only the case where no start completes
at all (every `curve_fit` call raises `RuntimeError`) is surfaced as the
NaN-filled "No results found" record; when at least one start completes but
every completed start has `nan` chi-square, line 890's `np.nanargmin` raises
`ValueError`, which propagates to the caller; otherwise the selected start has
the least chi-square among the non-`nan` chi-squares (first index on ties) and
its index is recorded as `best_result_index`. -/
theorem fit_spectrum_selection_spec (P : FitParams)
    (hmask : (useMask P.flux P.nivar P.s2).any id = true)
    (hdfun : resolveDfun P.dfun_requested P.deriv_status = Except.ok false) :
    ((spectrumStarts P).1 = [] →
      fit_spectrum P =
        Except.ok (noResultsOutput P.n_labels, (spectrumStarts P).2)) ∧
    ((spectrumStarts P).1 ≠ [] →
      (∀ r ∈ (spectrumStarts P).1, r.chi_sq = RVal.nan) →
      fit_spectrum P = Except.error "ValueError: All-NaN slice encountered") ∧
    (∀ k, nanargmin ((spectrumStarts P).1.map StartResult.chi_sq) =
        Except.ok k →
      k < (spectrumStarts P).1.length ∧
      ((spectrumStarts P).1.getD k default).chi_sq ≠ RVal.nan ∧
      (∀ j, j < (spectrumStarts P).1.length →
        ((spectrumStarts P).1.getD j default).chi_sq ≠ RVal.nan →
        RVal.leb ((spectrumStarts P).1.getD k default).chi_sq
          ((spectrumStarts P).1.getD j default).chi_sq = true) ∧
      fit_spectrum P =
        Except.ok (selectOutput P.theta P.vec P.n_fiducials
          (useMask P.flux P.nivar P.s2)
          (maskFilter (useMask P.flux P.nivar P.s2) P.flux) P.nivar
          P.model_lsf P.model_redshift false (spectrumStarts P).1 k,
          (spectrumStarts P).2) ∧
      (selectOutput P.theta P.vec P.n_fiducials
          (useMask P.flux P.nivar P.s2)
          (maskFilter (useMask P.flux P.nivar P.s2) P.flux) P.nivar
          P.model_lsf P.model_redshift false (spectrumStarts P).1
          k).meta.best_result_index = some k) := by
  have hne : ¬((useMask P.flux P.nivar P.s2).any id = false) := by
    simp [hmask]
  have hmap : ∀ j, j < (spectrumStarts P).1.length →
      ((spectrumStarts P).1.map StartResult.chi_sq).getD j RVal.nan =
        ((spectrumStarts P).1.getD j default).chi_sq := by
    intro j hj
    rw [List.getD_eq_getElem _ _ (by simpa using hj),
      List.getD_eq_getElem _ _ hj, List.getElem_map]
  refine ⟨?_, ?_, ?_⟩
  · intro hempty
    simp only [fit_spectrum]
    rw [if_neg hne, hdfun]
    simp only
    rw [if_pos hempty]
  · intro hne2 hallnan
    have hargm : nanargmin ((spectrumStarts P).1.map StartResult.chi_sq) =
        Except.error "ValueError: All-NaN slice encountered" := by
      have : nanargminAux ((spectrumStarts P).1.map StartResult.chi_sq) =
          none := by
        refine nanargminAux_all_nan _ ?_
        intro v hv
        obtain ⟨r, hr, hrv⟩ := List.mem_map.1 hv
        rw [← hrv]
        exact hallnan r hr
      simp [nanargmin, this]
    simp only [fit_spectrum]
    rw [if_neg hne, hdfun]
    simp only
    rw [if_neg hne2, hargm]
  · intro k hk
    have hne2 : (spectrumStarts P).1 ≠ [] := by
      intro hempty
      rw [hempty] at hk
      simp [nanargmin, nanargminAux] at hk
    have haux : ∃ b, nanargminAux ((spectrumStarts P).1.map StartResult.chi_sq) =
        some (k, b) := by
      rcases h2 : nanargminAux ((spectrumStarts P).1.map StartResult.chi_sq)
        with _ | ⟨k0, b0⟩
      · simp [nanargmin, h2] at hk
      · refine ⟨b0, ?_⟩
        simp [nanargmin, h2] at hk
        rw [hk]
    obtain ⟨b, hb⟩ := haux
    obtain ⟨hlt, hget, hbnan, hmin⟩ := nanargminAux_spec _ _ _ hb
    have hlen : k < (spectrumStarts P).1.length := by simpa using hlt
    have hchiK : ((spectrumStarts P).1.getD k default).chi_sq = b := by
      rw [← hmap k hlen]
      exact hget
    refine ⟨hlen, by rw [hchiK]; exact hbnan, ?_, ?_, ?_⟩
    · intro j hj hjnan
      rw [hchiK, ← hmap j hj]
      refine hmin j (by simpa using hj) ?_
      rw [hmap j hj]
      exact hjnan
    · simp only [fit_spectrum]
      rw [if_neg hne, hdfun]
      simp only
      rw [if_neg hne2, hk]
    · rfl

/-- Witness for `fit_spectrum_selection_spec` at a concrete input whose every
start raises `RuntimeError`. -/
theorem fit_spectrum_selection_spec_witness :
    (useMask allFailParams.flux allFailParams.nivar allFailParams.s2).any id =
      true ∧
    (spectrumStarts allFailParams).1 = [] ∧
    fit_spectrum allFailParams =
      Except.ok (noResultsOutput allFailParams.n_labels,
        (spectrumStarts allFailParams).2) :=
  ⟨rfl, rfl, (fit_spectrum_selection_spec allFailParams rfl rfl).1 rfl⟩

/-- C5 counterexample: at a concrete input with a usable pixel, requesting
derivative information from a vectorizer that supplies an analytic derivative
makes `_fit_spectrum` raise `NotImplementedError` instead of completing with
the analytic derivative. -/
theorem fit_spectrum_deriv_cex :
    fit_spectrum derivParams =
      Except.error "NotImplementedError: requires a thinko" := by
  decide

/-- C5 (amended): when derivative information is requested and the vectorizer
supplies an analytic label-vector derivative, `_fit_spectrum` (once past the
no-information early return) raises `NotImplementedError("requires a thinko")`
instead of using it; the finite-difference fallback (`Dfun = None`) is what
runs when the vectorizer raises `NotImplementedError`, or when no derivative
information is requested; and every successful run reports
`derivatives_used = False`. -/
theorem fit_spectrum_deriv_spec (P : FitParams)
    (hmask : (useMask P.flux P.nivar P.s2).any id = true) :
    (P.dfun_requested = true → P.deriv_status = DerivStatus.available →
      fit_spectrum P = Except.error "NotImplementedError: requires a thinko") ∧
    resolveDfun true DerivStatus.notImplemented = Except.ok false ∧
    (∀ st, resolveDfun false st = Except.ok false) ∧
    (∀ out n, fit_spectrum P = Except.ok (out, n) →
      out.meta.derivatives_used = false) := by
  have hne : ¬((useMask P.flux P.nivar P.s2).any id = false) := by
    simp [hmask]
  refine ⟨?_, rfl, fun st => rfl, ?_⟩
  · intro hr hs
    simp only [fit_spectrum]
    rw [if_neg hne, hr, hs]
    rfl
  · intro out n hok
    simp only [fit_spectrum] at hok
    rw [if_neg hne] at hok
    rcases hdf : resolveDfun P.dfun_requested P.deriv_status with e | b
    · rw [hdf] at hok
      simp at hok
    · rw [hdf] at hok
      simp only at hok
      have hbf : b = false := resolveDfun_ok_false _ _ _ hdf
      subst hbf
      by_cases hempty : (spectrumStarts P).1 = []
      · rw [if_pos hempty] at hok
        injection hok with hok
        have hout : noResultsOutput P.n_labels = out :=
          congrArg Prod.fst hok
        rw [← hout]
        rfl
      · rw [if_neg hempty] at hok
        rcases hna : nanargmin ((spectrumStarts P).1.map StartResult.chi_sq)
          with e2 | k
        · rw [hna] at hok
          simp at hok
        · rw [hna] at hok
          simp only at hok
          injection hok with hok
          have hout : selectOutput P.theta P.vec P.n_fiducials
              (useMask P.flux P.nivar P.s2)
              (maskFilter (useMask P.flux P.nivar P.s2) P.flux) P.nivar
              P.model_lsf P.model_redshift false (spectrumStarts P).1 k =
              out := congrArg Prod.fst hok
          rw [← hout]
          rfl

/-- Witness for `fit_spectrum_deriv_spec` at a concrete derivative-requesting
input. -/
theorem fit_spectrum_deriv_spec_witness :
    (useMask derivParams.flux derivParams.nivar derivParams.s2).any id = true ∧
    derivParams.dfun_requested = true ∧
    derivParams.deriv_status = DerivStatus.available ∧
    fit_spectrum derivParams =
      Except.error "NotImplementedError: requires a thinko" :=
  ⟨rfl, rfl, rfl, (fit_spectrum_deriv_spec derivParams rfl).1 rfl rfl⟩

/-- C8: with the redshift nuisance parameter enabled, every forward-model
evaluation whose velocity trial parameter exceeds the configured maximum
absolute velocity in magnitude returns an all-`nan` model vector of the masked
length — the trial is rejected, never silently clipped. -/
theorem fit_spectrum_velocity_reject (P : FitParams) (params : List ℚ)
    (hrs : P.model_redshift = true)
    (hv : |P.max_abs_velocity| < |velocityOf P.model_lsf params|) :
    spectrumModel P params =
      List.replicate (countTrue (useMask P.flux P.nivar P.s2)) RVal.nan := by
  simp only [spectrumModel, fModel, hrs]
  rw [if_pos trivial, if_pos (le_of_lt hv)]

/-- Witness for `fit_spectrum_velocity_reject` at a concrete out-of-range
velocity. -/
theorem fit_spectrum_velocity_reject_witness :
    velParams.model_redshift = true ∧
    |velParams.max_abs_velocity| < |velocityOf velParams.model_lsf [3, 20]| ∧
    spectrumModel velParams [3, 20] =
      List.replicate (countTrue (useMask velParams.flux velParams.nivar
        velParams.s2)) RVal.nan :=
  ⟨rfl, by decide,
    fit_spectrum_velocity_reject velParams [3, 20] rfl (by decide)⟩

/-- C10: `CannonModel.fit` with unset `initial_labels` makes exactly one
optimization start per spectrum, at the vectorizer's fiducials: the defaulted
labels are promoted to the single-row 2-D array `[fiducials]`; a supplied 1-D
vector is likewise promoted to one row and a 2-D array passes through; and any
`_fit_spectrum` run that proceeds past the no-information check makes exactly
one `curve_fit` invocation per initial-label row. -/
theorem fit_one_start_at_fiducials (fiducials : List ℚ) (P : FitParams)
    (hmask : (useMask P.flux P.nivar P.s2).any id = true) :
    fitInitialLabels LabelsArg.unset fiducials = [fiducials] ∧
    (∀ v, fitInitialLabels (LabelsArg.oneD v) fiducials = [v]) ∧
    (∀ m, fitInitialLabels (LabelsArg.twoD m) fiducials = m) ∧
    (∀ out n, fit_spectrum P = Except.ok (out, n) →
      n = P.initial_labels.length) := by
  have hne : ¬((useMask P.flux P.nivar P.s2).any id = false) := by
    simp [hmask]
  have hcount : (spectrumStarts P).2 = P.initial_labels.length :=
    runStarts_count _ _ _ _ _ _ _
  refine ⟨rfl, fun _ => rfl, fun _ => rfl, ?_⟩
  intro out n hok
  simp only [fit_spectrum] at hok
  rw [if_neg hne] at hok
  rcases hdf : resolveDfun P.dfun_requested P.deriv_status with e | b
  · rw [hdf] at hok
    simp at hok
  · rw [hdf] at hok
    simp only at hok
    by_cases hempty : (spectrumStarts P).1 = []
    · rw [if_pos hempty] at hok
      injection hok with hok
      have hsnd := congrArg Prod.snd hok
      simp only at hsnd
      rw [← hsnd]
      exact hcount
    · rw [if_neg hempty] at hok
      rcases hna : nanargmin ((spectrumStarts P).1.map StartResult.chi_sq)
        with e2 | k
      · rw [hna] at hok
        simp at hok
      · rw [hna] at hok
        simp only at hok
        injection hok with hok
        have hsnd := congrArg Prod.snd hok
        simp only at hsnd
        rw [← hsnd]
        exact hcount

/-- Witness for `fit_one_start_at_fiducials` at a concrete one-start input. -/
theorem fit_one_start_at_fiducials_witness :
    (useMask oneStartParams.flux oneStartParams.nivar oneStartParams.s2).any
      id = true ∧
    fitInitialLabels LabelsArg.unset [(2 : ℚ)] = [[(2 : ℚ)]] ∧
    (1 : Nat) = oneStartParams.initial_labels.length :=
  ⟨rfl, (fit_one_start_at_fiducials [(2 : ℚ)] oneStartParams rfl).1,
    (fit_one_start_at_fiducials [(2 : ℚ)] oneStartParams rfl).2.2.2
      oneStartOutput 1 (by decide)⟩
